import Mathlib

/-!
Verification of the homelab task manager's two core pipelines:

* `scripts/sync-tasks.py` — the Reconciler: walks the five column
  directories of the task store and relocates each task file to the
  directory matching its declared `status`, using a write-then-delete
  protocol.
* `scripts/generate-dashboard.py` — the Loader / Aggregator / Renderer:
  loads task records (escaping user strings, normalizing priority,
  sorting), computes statistics, and renders an HTML dashboard in a
  private and a public variant.

The Python scripts are embedded shallowly: the file-system tree is a
record of the five column directories, each a list of named files; the
YAML layer is abstracted to a per-file parse outcome (empty document,
malformed document, or a parsed mapping).  Mutable-accumulator loops
become structural recursions threading the same state.
-/

namespace TaskManager

/-! ## Sync engine (`scripts/sync-tasks.py`) -/

namespace Sync

/-- `VALID_COLUMNS` from `sync-tasks.py`. -/
def VALID_COLUMNS : List String := ["backlog", "todo", "in_progress", "stalled", "done"]

/-- The YAML mapping of a task file, restricted to the keys the sync
script reads or writes (`status`, `title`, `updated`); all remaining
key/value pairs are carried opaquely in `rest` (the script rewrites the
whole document unchanged apart from `updated`).  A `none` field models a
missing key. -/
structure TaskData where
  status : Option String
  title : Option String
  updated : Option String
  rest : List (String × String)
  deriving DecidableEq, Repr

/-- Outcome of `yaml.safe_load` on one file: a falsy document (`None`,
empty mapping — the script skips it), a parse/read failure (raises, the
script counts an error), or a parsed mapping. -/
inductive Content where
  | emptyDoc : Content
  | malformed : Content
  | ok : TaskData → Content
  deriving DecidableEq, Repr

/-- One file of a column directory. -/
structure SFile where
  name : String
  content : Content
  deriving DecidableEq, Repr

/-- The task store: the five fixed column directories (`tasks/<col>`),
each an ordered list of files (enumeration order of `glob`). -/
structure FS where
  backlog : List SFile
  todo : List SFile
  in_progress : List SFile
  stalled : List SFile
  done : List SFile
  deriving DecidableEq, Repr

def FS.getCol (fs : FS) : String → List SFile
  | "backlog" => fs.backlog
  | "todo" => fs.todo
  | "in_progress" => fs.in_progress
  | "stalled" => fs.stalled
  | "done" => fs.done
  | _ => []

def FS.setCol (fs : FS) (c : String) (l : List SFile) : FS :=
  match c with
  | "backlog" => { fs with backlog := l }
  | "todo" => { fs with todo := l }
  | "in_progress" => { fs with in_progress := l }
  | "stalled" => { fs with stalled := l }
  | "done" => { fs with done := l }
  | _ => fs

/-- `open(dest_file, 'w')` + `yaml.dump`: writing a file into a
directory replaces an existing file of the same name in place (the
OS-level overwrite of `dest_file`), otherwise adds it. -/
def replaceOrAppend : List SFile → SFile → List SFile
  | [], f => [f]
  | g :: rest, f => if g.name = f.name then f :: rest else g :: replaceOrAppend rest f

def FS.writeFile (fs : FS) (c : String) (f : SFile) : FS :=
  fs.setCol c (replaceOrAppend (fs.getCol c) f)

/-- `task_file.unlink()`: remove the file of that name from the column. -/
def FS.unlink (fs : FS) (c : String) (n : String) : FS :=
  fs.setCol c ((fs.getCol c).filter (fun g => g.name ≠ n))

/-- Observable events of a sync pass, in emission order: the log lines
(`log_warn` / `log_error` / the `Moved:` block) and the two file-system
mutations of a move. -/
inductive Ev where
  | warnInvalidStatus : String → String → Ev
  | loadError : String → Ev
  | writeError : String → String → Ev
  | wrote : String → String → Ev
  | deleted : String → String → Ev
  | movedMsg : String → String → String → String → Ev
  deriving DecidableEq, Repr

/-- Python's `str.lower()` (character-wise; the status and priority
strings are ASCII). -/
def pyLower (s : String) : String := String.mk (s.toList.map Char.toLower)

/-- `yaml_status = task_data.get('status', '').lower()`. -/
def normStatus (d : TaskData) : String := pyLower (d.status.getD "")

/-- The body of the per-file loop of `sync_tasks` (lines 52–98 of
`sync-tasks.py`) acting on file `f` of column `c`.  Returns the updated
tree, the increments to `moved_count` and `error_count`, and the events
emitted.  `wf dest name` is the write-failure oracle: `true` means the
destination write (`open`/`yaml.dump`) raises, which the `except` arm
catches after the tree was left unchanged; `now` stands for
`datetime.utcnow().strftime('%Y-%m-%d %H:%M:%S UTC')`. -/
def processFile (wf : String → String → Bool) (now : String) (c : String)
    (fs : FS) (f : SFile) : FS × Nat × Nat × List Ev :=
  match f.content with
  | Content.malformed => (fs, 0, 1, [Ev.loadError f.name])
  | Content.emptyDoc => (fs, 0, 0, [])
  | Content.ok d =>
    let st := normStatus d
    if st ∈ VALID_COLUMNS then
      if st = c then (fs, 0, 0, [])
      else if wf st f.name then (fs, 0, 1, [Ev.writeError st f.name])
      else
        let d2 : TaskData := { d with updated := some now }
        let fs1 := fs.writeFile st ⟨f.name, Content.ok d2⟩
        let fs2 := fs1.unlink c f.name
        (fs2, 1, 0,
          [Ev.wrote st f.name, Ev.deleted c f.name,
           Ev.movedMsg (d.title.getD "Untitled") c st f.name])
    else (fs, 0, 1, [Ev.warnInvalidStatus f.name st])

/-- The inner `for task_file in column_dir.glob("*.yaml")` loop over a
snapshot `files` of column `c`, threading the tree and accumulating the
counters (moves never target the current column, so the snapshot is
never invalidated mid-loop). -/
def syncFiles (wf : String → String → Bool) (now : String) (c : String) :
    List SFile → FS → FS × Nat × Nat × List Ev
  | [], fs => (fs, 0, 0, [])
  | f :: rest, fs =>
    let r1 := processFile wf now c fs f
    let r2 := syncFiles wf now c rest r1.1
    (r2.1, r1.2.1 + r2.2.1, r1.2.2.1 + r2.2.2.1, r1.2.2.2 ++ r2.2.2.2)

/-- The outer `for current_column in VALID_COLUMNS` loop: each column is
globbed at the moment its turn comes (so files moved there by earlier
columns are seen). -/
def syncColumns (wf : String → String → Bool) (now : String) :
    List String → FS → FS × Nat × Nat × List Ev
  | [], fs => (fs, 0, 0, [])
  | c :: cs, fs =>
    let r1 := syncFiles wf now c (fs.getCol c) fs
    let r2 := syncColumns wf now cs r1.1
    (r2.1, r1.2.1 + r2.2.1, r1.2.2.1 + r2.2.2.1, r1.2.2.2 ++ r2.2.2.2)

/-- `sync_tasks()` of `sync-tasks.py`: the whole pass.  The `.2.1` and
`.2.2.1` projections of the result are the returned
`(moved_count, error_count)`. -/
def sync_tasks (wf : String → String → Bool) (now : String) (fs : FS) :
    FS × Nat × Nat × List Ev :=
  syncColumns wf now VALID_COLUMNS fs

/-- An always-succeeding write oracle (the normal, failure-free run). -/
def noFail : String → String → Bool := fun _ _ => false

end Sync

end TaskManager

namespace TaskManager

/-! ## Dashboard generator (`scripts/generate-dashboard.py`) -/

namespace Dash

/-- `COLUMNS` from `generate-dashboard.py`. -/
def COLUMNS : List String := ["backlog", "todo", "in_progress", "stalled", "done"]

/-- `COLUMN_LABELS` (total function on the five keys; other keys are
never looked up because the renderer iterates `COLUMNS`). -/
def COLUMN_LABELS : String → String
  | "backlog" => "Backlog"
  | "todo" => "To Do"
  | "in_progress" => "In Progress"
  | "stalled" => "Stalled"
  | "done" => "Done"
  | _ => ""

/-- The keys of `PRIORITY_CONFIG`, in dict insertion order. -/
def PRIORITY_KEYS : List String := ["urgent", "high", "medium", "low"]

/-- `PRIORITY_CONFIG[p]["order"]` (the `_ => 0` branch is never reached
on loader-normalized priorities). -/
def priorityOrder : String → Nat
  | "urgent" => 4
  | "high" => 3
  | "medium" => 2
  | "low" => 1
  | _ => 0

/-- `PRIORITY_CONFIG[p]["color"]`. -/
def priorityColor : String → String
  | "urgent" => "#ff6b6b"
  | "high" => "#f85149"
  | "medium" => "#d29922"
  | "low" => "#58a6ff"
  | _ => ""

/-- `PRIORITY_CONFIG[p]["label"]`. -/
def priorityLabel : String → String
  | "urgent" => "Urgent"
  | "high" => "High"
  | "medium" => "Medium"
  | "low" => "Low"
  | _ => ""

/-- One character of Python's `html.escape(s, quote=True)`: `&` `<` `>`
`"` `'` become entities, all other characters pass through.  (The
sequential `str.replace` calls of `html.escape` replace `&` first, so
the chain equals this character-wise map.) -/
def escapeChar (c : Char) : String :=
  if c = '&' then "&amp;"
  else if c = '<' then "&lt;"
  else if c = '>' then "&gt;"
  else if c = Char.ofNat 34 then "&quot;"
  else if c = Char.ofNat 39 then "&#x27;"
  else String.singleton c

def escapeString (s : String) : String := String.join (s.toList.map escapeChar)

/-- `safe_html_escape` of `generate-dashboard.py`: `None` becomes `""`,
anything else is stringified and escaped. -/
def safe_html_escape : Option String → String
  | none => ""
  | some s => escapeString s

/-- The raw `tags` value of a YAML document: absent, present but not a
list (coerced to `[]` by the loader), or a list of strings. -/
inductive YamlTags where
  | absent : YamlTags
  | notList : YamlTags
  | list : List String → YamlTags
  deriving DecidableEq, Repr

/-- A parsed task document as `load_tasks` reads it; `none` models a
missing key. -/
structure RawTask where
  title : Option String
  description : Option String
  category : Option String
  priority : Option String
  tags : YamlTags
  «private» : Option Bool
  deriving DecidableEq, Repr

/-- A task record after `load_tasks` normalized it. -/
structure Task where
  title : String
  description : String
  category : String
  priority : String
  tags : List String
  filename : String
  column : String
  «private» : Bool
  deriving DecidableEq, Repr

/-- Priority validation of `load_tasks` (lines 67–71):
`task_data.get('priority', 'medium').lower()`, falling back to
`'medium'` when the result is not a `PRIORITY_CONFIG` key. -/
def normPriority (p : Option String) : String :=
  let pr := Sync.pyLower (p.getD "medium")
  if pr ∈ PRIORITY_KEYS then pr else "medium"

/-- Field normalization of `load_tasks` (lines 62–85) for one parsed
document found as file `fname` of column `col`. -/
def normalizeTask (r : RawTask) (fname col : String) : Task :=
  { title := safe_html_escape (some (r.title.getD "Untitled"))
    description := safe_html_escape (some (r.description.getD ""))
    category := safe_html_escape (some (r.category.getD "general"))
    priority := normPriority r.priority
    tags :=
      match r.tags with
      | YamlTags.list l => l.map (fun tag => safe_html_escape (some tag))
      | _ => []
    filename := fname
    column := col
    «private» := r.«private».getD false }

/-- Outcome of `yaml.safe_load` on one dashboard input file. -/
inductive DContent where
  | emptyDoc : DContent
  | malformed : DContent
  | ok : RawTask → DContent
  deriving DecidableEq, Repr

structure DFile where
  name : String
  content : DContent
  deriving DecidableEq, Repr

/-- The task store as the dashboard generator sees it: each of the five
column directories either does not exist (`none`) or holds an ordered
list of files. -/
structure Store where
  backlog : Option (List DFile)
  todo : Option (List DFile)
  in_progress : Option (List DFile)
  stalled : Option (List DFile)
  done : Option (List DFile)
  deriving DecidableEq, Repr

/-- The `tasks` dict built by `load_tasks`: exactly the five column
keys, each an ordered list of records. -/
structure TasksMap where
  backlog : List Task
  todo : List Task
  in_progress : List Task
  stalled : List Task
  done : List Task
  deriving DecidableEq, Repr

def TasksMap.getCol (t : TasksMap) : String → List Task
  | "backlog" => t.backlog
  | "todo" => t.todo
  | "in_progress" => t.in_progress
  | "stalled" => t.stalled
  | "done" => t.done
  | _ => []

/-- The inner file loop of `load_tasks` over one column directory:
malformed files add a diagnostic and are skipped, falsy documents are
skipped silently, parsed documents are normalized and appended. -/
def loadColumnFiles (col : String) : List DFile → List Task × List String
  | [] => ([], [])
  | f :: rest =>
    let r := loadColumnFiles col rest
    match f.content with
    | DContent.malformed => (r.1, ("Error parsing tasks/" ++ col ++ "/" ++ f.name) :: r.2)
    | DContent.emptyDoc => r
    | DContent.ok raw => (normalizeTask raw f.name col :: r.1, r.2)

/-- One column of `load_tasks` including the missing-directory warning. -/
def loadDir (col : String) : Option (List DFile) → List Task × List String
  | none => ([], ["Warning: Directory tasks/" ++ col ++ " does not exist"])
  | some files => loadColumnFiles col files

/-- The sort key comparison of `tasks[column].sort(key=..., reverse=True)`:
a stable sort placing `a` before `b` when `a`'s priority rank is at
least `b`'s (descending ranks, ties keep enumeration order). -/
def taskLE (a b : Task) : Bool := priorityOrder b.priority ≤ priorityOrder a.priority

/-- `list.sort(key=lambda x: PRIORITY_CONFIG[x['priority']]['order'], reverse=True)`
— CPython's sort is stable, and `reverse=True` flips comparisons
without disturbing ties, which is exactly stable merge sort under
`taskLE`. -/
def sortColumn (l : List Task) : List Task := l.mergeSort taskLE

/-- `load_tasks()` of `generate-dashboard.py`: load the five columns,
collect diagnostics, and sort every column by priority rank
descending. -/
def load_tasks (s : Store) : TasksMap × List String :=
  let b := loadDir "backlog" s.backlog
  let t := loadDir "todo" s.todo
  let i := loadDir "in_progress" s.in_progress
  let st := loadDir "stalled" s.stalled
  let d := loadDir "done" s.done
  (⟨sortColumn b.1, sortColumn t.1, sortColumn i.1, sortColumn st.1, sortColumn d.1⟩,
    b.2 ++ t.2 ++ i.2 ++ st.2 ++ d.2)

/-- Python dict update `m[k] = m.get(k, 0) + 1` on an association list
with unique keys: increment the entry of `k`, or append `(k, 1)` when
absent. -/
def bump : List (String × Nat) → String → List (String × Nat)
  | [], k => [(k, 1)]
  | p :: rest, k => if p.1 = k then (p.1, p.2 + 1) :: rest else p :: bump rest k

/-- First-match lookup with default `0`, the reading side of
`m.get(k, 0)`. -/
def lookup0 : List (String × Nat) → String → Nat
  | [], _ => 0
  | p :: rest, k => if p.1 = k then p.2 else lookup0 rest k

/-- The mutable accumulators of `calculate_stats`. -/
structure StatsAcc where
  total : Nat
  by_priority : List (String × Nat)
  by_category : List (String × Nat)
  backlog_count : Nat
  todo_count : Nat
  active_count : Nat
  stalled_count : Nat
  done_count : Nat
  deriving DecidableEq, Repr

/-- Initial accumulator state: `by_priority` pre-seeded with the four
priority keys at `0`, everything else zero/empty. -/
def statsInit : StatsAcc :=
  { total := 0
    by_priority := [("urgent", 0), ("high", 0), ("medium", 0), ("low", 0)]
    by_category := []
    backlog_count := 0
    todo_count := 0
    active_count := 0
    stalled_count := 0
    done_count := 0 }

/-- The loop body of `calculate_stats` (lines 115–138) for one task of
column `col`: skip private tasks when excluded, otherwise bump the
total, the priority and category tallies, and the matching per-column
counter (the `elif` chain). -/
def statsStep (include_private : Bool) (acc : StatsAcc) (col : String) (t : Task) : StatsAcc :=
  if !include_private && t.«private» then acc
  else
    { total := acc.total + 1
      by_priority := bump acc.by_priority t.priority
      by_category := bump acc.by_category t.category
      backlog_count := acc.backlog_count + (if col = "backlog" then 1 else 0)
      todo_count := acc.todo_count + (if col = "todo" then 1 else 0)
      active_count := acc.active_count + (if col = "in_progress" then 1 else 0)
      stalled_count := acc.stalled_count + (if col = "stalled" then 1 else 0)
      done_count := acc.done_count + (if col = "done" then 1 else 0) }

/-- The `(column, task)` pairs `calculate_stats` iterates, in
`tasks.items()` order (the dict is built over `COLUMNS` in order). -/
def statsPairs (tasks : TasksMap) : List (String × Task) :=
  COLUMNS.flatMap (fun c => (tasks.getCol c).map (fun t => (c, t)))

def statsLoop (include_private : Bool) : List (String × Task) → StatsAcc → StatsAcc
  | [], acc => acc
  | (c, t) :: rest, acc => statsLoop include_private rest (statsStep include_private acc c t)

/-- Round to the nearest integer, ties to even — the rounding of
Python's builtin `round`. -/
def roundHalfEven (q : ℚ) : ℤ :=
  let n := Int.floor q
  let r := q - n
  if r < 1/2 then n
  else if 1/2 < r then n + 1
  else if n % 2 = 0 then n else n + 1

/-- `round(x, 1)`: round to one decimal place, ties to even.  (The
Python value is an IEEE double; on this pipeline's small integer ratios
the rational result agrees.) -/
def round1 (q : ℚ) : ℚ := (roundHalfEven (q * 10) : ℚ) / 10

/-- `round((done_count / total * 100) if total > 0 else 0, 1)`. -/
def completionRate (done_count total : Nat) : ℚ :=
  round1 (if 0 < total then (done_count : ℚ) / (total : ℚ) * 100 else 0)

/-- The dict returned by `calculate_stats`. -/
structure Stats where
  total : Nat
  backlog : Nat
  todo : Nat
  active : Nat
  stalled : Nat
  done : Nat
  completion_rate : ℚ
  by_priority : List (String × Nat)
  by_category : List (String × Nat)
  deriving DecidableEq, Repr

/-- `calculate_stats(tasks, include_private)` of
`generate-dashboard.py`. -/
def calculate_stats (tasks : TasksMap) (include_private : Bool) : Stats :=
  let acc := statsLoop include_private (statsPairs tasks) statsInit
  { total := acc.total
    backlog := acc.backlog_count
    todo := acc.todo_count
    active := acc.active_count
    stalled := acc.stalled_count
    done := acc.done_count
    completion_rate := completionRate acc.done_count acc.total
    by_priority := acc.by_priority
    by_category := acc.by_category }

/-- The public-dashboard watermark block of `generate_html`. -/
def watermarkHtml : String :=
  "\n        <div style=\"background: #1f6feb; color: white; padding: 10px; text-align: center; border-radius: 6px; margin-bottom: 20px;\">\n            Public Dashboard - Showing selected tasks only\n        </div>\n        "

/-- One-decimal display of a nonnegative rational `k/10`, matching the
`repr` of the Python float `round(x, 1)` (e.g. `25.0`, `33.3`). -/
def floatRepr1 (q : ℚ) : String :=
  let k : ℤ := Int.floor (q * 10)
  toString (k / 10) ++ "." ++ toString (k % 10)

/-- The string `{stats['completion_rate']}` interpolates to: when
`total == 0` Python computed `round(0, 1)`, an `int`, shown as `0`;
otherwise a float shown with its decimal. -/
def completionRateStr (s : Stats) : String :=
  if s.total = 0 then "0" else floatRepr1 s.completion_rate

/-- The `stats_html` f-string of `generate_html` (lines 168–199). -/
def statsHtml (s : Stats) : String :=
  "\n    <div class=\"stats\">\n        <div class=\"stat-card\">\n            <div class=\"stat-value\">" ++ toString s.total ++ "</div>\n            <div class=\"stat-label\">Total Tasks</div>\n        </div>\n        <div class=\"stat-card\">\n            <div class=\"stat-value\">" ++ toString s.backlog ++ "</div>\n            <div class=\"stat-label\">Backlog</div>\n        </div>\n        <div class=\"stat-card\">\n            <div class=\"stat-value\">" ++ toString s.todo ++ "</div>\n            <div class=\"stat-label\">To Do</div>\n        </div>\n        <div class=\"stat-card stat-active\">\n            <div class=\"stat-value\">" ++ toString s.active ++ "</div>\n            <div class=\"stat-label\">Active</div>\n        </div>\n        <div class=\"stat-card stat-stalled\">\n            <div class=\"stat-value\">" ++ toString s.stalled ++ "</div>\n            <div class=\"stat-label\">Stalled</div>\n        </div>\n        <div class=\"stat-card stat-done\">\n            <div class=\"stat-value\">" ++ toString s.done ++ "</div>\n            <div class=\"stat-label\">Completed</div>\n        </div>\n        <div class=\"stat-card\">\n            <div class=\"stat-value\">" ++ completionRateStr s ++ "%</div>\n            <div class=\"stat-label\">Completion Rate</div>\n        </div>\n    </div>\n    "

/-- The per-column filter of `generate_html` (lines 206–208): the list
of tasks for which a card is emitted in column `c`. -/
def renderColumnTasks (tasks : TasksMap) (c : String) (is_public : Bool) : List Task :=
  if is_public then (tasks.getCol c).filter (fun t => !t.«private») else tasks.getCol c

/-- All tasks rendered as cards, across the five columns in order. -/
def renderedCards (tasks : TasksMap) (is_public : Bool) : List Task :=
  COLUMNS.flatMap (fun c => renderColumnTasks tasks c is_public)

/-- The `tags_html` fragment for one task. -/
def tagsHtml (t : Task) : String :=
  if t.tags.isEmpty then ""
  else
    "<div class=\"task-meta\">"
      ++ String.join (t.tags.map (fun tag => "<span class=\"tag\">" ++ tag ++ "</span>"))
      ++ "</div>"

/-- The `description_html` fragment for one task. -/
def descriptionHtml (t : Task) : String :=
  if t.description = "" then ""
  else "<div class=\"task-description\">" ++ t.description ++ "</div>"

/-- One task card of the kanban board (lines 237–244). -/
def taskCardHtml (t : Task) : String :=
  "\n            <div class=\"task-card priority-" ++ t.priority
    ++ "\">\n                <div class=\"task-title\">" ++ t.title
    ++ "</div>\n                <div style=\"color: " ++ priorityColor t.priority
    ++ "; font-size: 0.85em; margin-top: 5px;\">" ++ priorityLabel t.priority
    ++ "</div>\n                " ++ descriptionHtml t
    ++ "\n                " ++ tagsHtml t
    ++ "\n            </div>\n            "

/-- One kanban column: header plus the cards of its (possibly
privacy-filtered) task list (lines 203–246). -/
def columnHtml (tasks : TasksMap) (is_public : Bool) (c : String) : String :=
  let task_list := renderColumnTasks tasks c is_public
  "\n        <div class=\"column column-" ++ c ++ "\">\n            <h2>" ++ COLUMN_LABELS c
    ++ " <span style=\"color: #8b949e;\">(" ++ toString task_list.length
    ++ ")</span></h2>\n        "
    ++ String.join (task_list.map taskCardHtml)
    ++ "</div>"

/-- The full `kanban_html` string. -/
def kanbanHtml (tasks : TasksMap) (is_public : Bool) : String :=
  "<div class=\"kanban\">" ++ String.join (COLUMNS.map (columnHtml tasks is_public)) ++ "</div>"
def htmlPre1 : String :=
  "<!DOCTYPE html>\n<html lang=\"en\">\n<head>\n    <meta charset=\"UTF-8\">\n    <meta name=\"viewport\" content=\"width=device-width, initial-scale=1.0\">\n    <title>Homelab Task Dashboard"

def htmlPre2a : String :=
  "</title>\n    <style>\n        * \x7b margin: 0; padding: 0; box-sizing: border-box; \x7d\n        body \x7b \n            font-family: -apple-system, BlinkMacSystemFont, 'Segoe UI', 'Roboto', sans-serif;\n            background: #0d1117;\n            color: #c9d1d9;\n            padding: 20px;\n            line-height: 1.6;\n        \x7d\n        .container \x7b max-width: 1600px; margin: 0 auto; \x7d\n        header \x7b \n            margin-bottom: 40px;\n            padding-bottom: 20px;\n            border-bottom: 2px solid #30363d;\n        \x7d\n        h1 \x7b \n            color: #58a6ff; \n            margin-bottom: 10px;\n            font-size: 2em;\n        \x7d\n        .subtitle \x7b \n            color: #8b949e;\n            font-size: 1.1em;\n        \x7d\n        .stats \x7b\n            display: grid;\n            grid-template-columns: repeat(auto-fit, minmax(180px, 1fr));\n            gap: 20px;\n            margin-bottom: 40px;\n        \x7d\n        .stat-card \x7b\n            background: #161b22;\n            border: 1px solid #30363d;\n            border-radius: 6px;\n            padding: 20px;\n            text-align: center;\n        \x7d\n       "

def htmlPre2b : String :=
  " .stat-active \x7b\n            border-left: 4px solid #58a6ff;\n        \x7d\n        .stat-stalled \x7b\n            border-left: 4px solid #d29922;\n        \x7d\n        .stat-done \x7b\n            border-left: 4px solid #3fb950;\n        \x7d\n        .stat-value \x7b \n            font-size: 2.5em; \n            font-weight: bold; \n            color: #58a6ff;\n            margin-bottom: 8px;\n        \x7d\n        .stat-label \x7b \n            color: #8b949e;\n            font-size: 0.95em;\n            text-transform: uppercase;\n            letter-spacing: 0.5px;\n        \x7d\n        .kanban \x7b\n            display: grid;\n            grid-template-columns: repeat(auto-fit, minmax(280px, 1fr));\n            gap: 20px;\n        \x7d\n        .column \x7b\n            background: #161b22;\n            border: 1px solid #30363d;\n            border-radius: 6px;\n            padding: 20px;\n        \x7d\n        .column-stalled \x7b\n            border-top: 3px solid #d29922;\n        \x7d\n        .column h2 \x7b\n            color: #58a6ff;\n            margin-bottom: 20px;\n            font-size: 1.3em;\n            padding-bottom: 10px;\n            border-bottom:"

def htmlPre2c : String :=
  " 2px solid #30363d;\n        \x7d\n        .column-stalled h2 \x7b\n            color: #d29922;\n        \x7d\n        .task-card \x7b\n            background: #0d1117;\n            border: 1px solid #30363d;\n            border-radius: 6px;\n            padding: 15px;\n            margin-bottom: 12px;\n            transition: all 0.2s ease;\n        \x7d\n        .task-card:hover \x7b \n            border-color: #58a6ff;\n            box-shadow: 0 4px 8px rgba(0,0,0,0.3);\n            transform: translateY(-2px);\n        \x7d\n        .task-title \x7b \n            color: #c9d1d9; \n            font-weight: 600;\n            font-size: 1.05em;\n            margin-bottom: 8px;\n            line-height: 1.4;\n        \x7d\n        .task-description \x7b \n            color: #8b949e; \n            font-size: 0.9em; \n            margin-top: 10px;\n            line-height: 1.5;\n            padding-top: 10px;\n            border-top: 1px solid #30363d;\n        \x7d\n        .task-meta \x7b \n            display: flex;\n            gap: 8px;\n            flex-wrap: wrap;\n            margin-top: 12px;\n        \x7d\n        .tag \x7b\n            background: #1f6feb;\n    "

def htmlPre2d : String :=
  "        color: #fff;\n            padding: 3px 10px;\n            border-radius: 12px;\n            font-size: 0.8em;\n            font-weight: 500;\n        \x7d\n        .priority-urgent \x7b border-left: 4px solid #ff6b6b; \x7d\n        .priority-high \x7b border-left: 4px solid #f85149; \x7d\n        .priority-medium \x7b border-left: 4px solid #d29922; \x7d\n        .priority-low \x7b border-left: 4px solid #58a6ff; \x7d\n        .updated \x7b \n            color: #8b949e; \n            font-size: 0.9em; \n            margin-top: 30px;\n            text-align: center;\n            padding-top: 20px;\n            border-top: 1px solid #30363d;\n        \x7d\n        @media (max-width: 1200px) \x7b\n            .kanban \x7b\n                grid-template-columns: repeat(auto-fit, minmax(250px, 1fr));\n            \x7d\n        \x7d\n        @media (max-width: 768px) \x7b\n            .kanban \x7b\n                grid-template-columns: 1fr;\n            \x7d\n            .stats \x7b\n                grid-template-columns: repeat(2, 1fr);\n            \x7d\n        \x7d\n    </style>\n</head>\n<body>\n    <div class=\"container\">\n        <header>\n            <h1>Homelab Task Dashboard"

def htmlPre2 : String := htmlPre2a ++ htmlPre2b ++ htmlPre2c ++ htmlPre2d

def htmlMid : String :=
  "</h1>\n            <div class=\"subtitle\">Task Management System</div>\n        </header>\n        \n        "

/-- `generate_html(tasks, stats, is_public)` of `generate-dashboard.py`
(the `Last updated` timestamp `datetime.now().strftime(...)` is passed
in as `nowStr`). -/
def generate_html (tasks : TasksMap) (stats : Stats) (is_public : Bool) (nowStr : String) : String :=
  let title_suffix := if is_public then " (Public)" else ""
  let watermark := if is_public then watermarkHtml else ""
  htmlPre1 ++ title_suffix ++ htmlPre2 ++ title_suffix ++ htmlMid
    ++ watermark ++ "\n        " ++ statsHtml stats ++ "\n        " ++ kanbanHtml tasks is_public
    ++ "\n        \n        <div class=\"updated\">\n            Last updated: " ++ nowStr
    ++ "\n        </div>\n    </div>\n</body>\n</html>"

end Dash

end TaskManager

namespace TaskManager

namespace Sync

/-! ### Proof-support definitions for the sync engine -/

/-- Projections of a pass result: updated tree, `moved_count`,
`error_count`, events. -/
def resultFS (r : FS × Nat × Nat × List Ev) : FS := r.1

def movedCount (r : FS × Nat × Nat × List Ev) : Nat := r.2.1

def errorCount (r : FS × Nat × Nat × List Ev) : Nat := r.2.2.1

def events (r : FS × Nat × Nat × List Ev) : List Ev := r.2.2.2

/-- A file the sync pass has nothing to do for in column `c`: an empty
document, or a parsed record whose normalized status is `c` itself. -/
def fileGood (c : String) (f : SFile) : Bool :=
  match f.content with
  | Content.emptyDoc => true
  | Content.malformed => false
  | Content.ok d => normStatus d = c

/-- Column `c` is consistent: every file in it is `fileGood`. -/
def colGood (fs : FS) (c : String) : Prop :=
  ∀ f ∈ fs.getCol c, fileGood c f = true

instance (fs : FS) (c : String) : Decidable (colGood fs c) := by
  unfold colGood; infer_instance

end Sync

end TaskManager

namespace TaskManager

namespace Sync

/-! ### Concrete fixtures -/

/-- A record declaring status `todo`, sitting in `backlog`. -/
def dA : TaskData := ⟨some "todo", some "Task One", none, []⟩

def fsA : FS := ⟨[⟨"a.yaml", Content.ok dA⟩], [], [], [], []⟩

/-- A record with the invalid status `archived`. -/
def dArch : TaskData := ⟨some "archived", some "Old", none, []⟩

def fsArch : FS := ⟨[⟨"b.yaml", Content.ok dArch⟩], [], [], [], []⟩

/-- `todo/a.yaml` declares `done` while `done/a.yaml` already exists. -/
def dMover : TaskData := ⟨some "done", some "Mover", none, []⟩

def dKeeper : TaskData := ⟨some "done", some "Keeper", none, []⟩

def fsClobber : FS :=
  ⟨[], [⟨"a.yaml", Content.ok dMover⟩], [], [], [⟨"a.yaml", Content.ok dKeeper⟩]⟩

/-- An always-failing write oracle. -/
def wfFail : String → String → Bool := fun _ _ => true

end Sync

end TaskManager

namespace TaskManager

namespace Dash

/-! ### Proof-support definitions for the aggregator -/

/-- Sum of the values of a tally dict. -/
def sumVals (l : List (String × Nat)) : Nat := (l.map Prod.snd).sum

/-- The sum of the four known per-priority counts. -/
def fourPrioritySum (l : List (String × Nat)) : Nat :=
  lookup0 l "urgent" + lookup0 l "high" + lookup0 l "medium" + lookup0 l "low"

/-- The loop filter of `calculate_stats`: a `(column, task)` pair is
counted unless private tasks are excluded and the task is private. -/
def statsCounted (include_private : Bool) (p : String × Task) : Bool :=
  !(!include_private && p.2.«private»)


/-- The running invariant of the `calculate_stats` accumulators. -/
def accConsistent (acc : StatsAcc) : Prop :=
  acc.total = acc.backlog_count + acc.todo_count + acc.active_count +
      acc.stalled_count + acc.done_count ∧
  acc.total = fourPrioritySum acc.by_priority ∧
  acc.total = sumVals acc.by_category


/-- Column access on the raw store. -/
def Store.getCol (s : Store) : String → Option (List DFile)
  | "backlog" => s.backlog
  | "todo" => s.todo
  | "in_progress" => s.in_progress
  | "stalled" => s.stalled
  | "done" => s.done
  | _ => none


/-! ### Aggregator fixtures -/

def tasksEmpty : TasksMap := ⟨[], [], [], [], []⟩

def tA : Task := ⟨"A", "", "general", "medium", [], "a.yaml", "backlog", false⟩

def tB : Task := ⟨"B", "", "general", "high", [], "b.yaml", "todo", false⟩

def tC : Task := ⟨"C", "", "general", "low", [], "c.yaml", "in_progress", false⟩

def tD : Task := ⟨"D", "", "general", "urgent", [], "d.yaml", "done", false⟩

/-- Four records, one of them in `done`. -/
def tasks4 : TasksMap := ⟨[tA], [tB], [tC], [], [tD]⟩

/-- A record whose `priority` field was never normalized. -/
def taskCritical : Task := ⟨"T", "", "general", "critical", [], "t.yaml", "backlog", false⟩

def tasksCritical : TasksMap := ⟨[taskCritical], [], [], [], []⟩


/-! ### Loader fixtures -/

def rawLow : RawTask := ⟨some "L", none, none, some "low", YamlTags.absent, none⟩

def rawUrgent : RawTask := ⟨some "U", none, none, some "urgent", YamlTags.absent, none⟩

def rawMedium : RawTask := ⟨some "M", none, none, some "critical", YamlTags.absent, none⟩

def rawHigh : RawTask := ⟨some "H", none, none, some "high", YamlTags.absent, none⟩

/-- A backlog with priorities `[low, urgent, medium (from "critical"), high]`. -/
def storeFixture : Store :=
  ⟨some [⟨"l.yaml", DContent.ok rawLow⟩, ⟨"u.yaml", DContent.ok rawUrgent⟩,
      ⟨"m.yaml", DContent.ok rawMedium⟩, ⟨"h.yaml", DContent.ok rawHigh⟩],
    some [], some [], some [], some []⟩


/-! ### Escaping-boundary support definitions -/

/-- The forbidden raw markup, as a character list. -/
def scriptPat : List Char := "<script>".toList

/-- `pat` occurs as a contiguous substring of `s`. -/
def occursIn (pat s : String) : Prop := pat.data <:+: s.data

/-- Substring scan: does `pat` occur in the list? -/
def containsSub (pat : List Char) : List Char → Bool
  | [] => pat.isPrefixOf []
  | c :: rest => if pat.isPrefixOf (c :: rest) then true else containsSub pat rest

/-- Does some nonempty suffix of the list start the pattern? -/
def endsWithPrefixOf (pat : List Char) : List Char → Bool
  | [] => false
  | c :: rest => if (c :: rest).isPrefixOf pat then true else endsWithPrefixOf pat rest

/-- A character list that neither contains `<script>` nor ends in a
nonempty prefix of it (so no occurrence can straddle a boundary whose
left side is safe). -/
def SafeList (l : List Char) : Prop :=
  containsSub scriptPat l = false ∧ endsWithPrefixOf scriptPat l = false

instance (l : List Char) : Decidable (SafeList l) := by
  unfold SafeList; infer_instance

def SafeStr (s : String) : Prop := SafeList s.data

instance (s : String) : Decidable (SafeStr s) := by
  unfold SafeStr; infer_instance

/-- The record with the hostile title, and a store holding it. -/
def rawC6 : RawTask :=
  ⟨some "<script>alert(1)</script>", none, none, none, YamlTags.absent, none⟩

def storeC6 : Store :=
  ⟨some [⟨"evil.yaml", DContent.ok rawC6⟩], some [], some [], some [], some []⟩

/-- The loaded form of `rawC6` (title escaped, defaults applied). -/
def taskC6 : Task :=
  ⟨"&lt;script&gt;alert(1)&lt;/script&gt;", "", "general", "medium", [],
    "evil.yaml", "backlog", false⟩

def tasksC6 : TasksMap := ⟨[taskC6], [], [], [], []⟩

def nowC6 : String := "2025-01-01 00:00:00 UTC"

/-- The private dashboard document generated for `storeC6`, exactly as
`main` produces it. -/
def docC6 : String :=
  generate_html (load_tasks storeC6).1 (calculate_stats (load_tasks storeC6).1 true)
    false nowC6

end Dash

end TaskManager

/-! ## Theorems -/

namespace TaskManager

namespace Sync

theorem getCol_setCol_self (fs : FS) (l : List SFile) {c : String}
    (h : c ∈ VALID_COLUMNS) : (fs.setCol c l).getCol c = l := by
  simp only [VALID_COLUMNS, List.mem_cons, List.not_mem_nil, or_false] at h
  rcases h with rfl | rfl | rfl | rfl | rfl
  all_goals rfl

theorem getCol_setCol_ne (fs : FS) (l : List SFile) {c c' : String}
    (h : c' ≠ c) : (fs.setCol c l).getCol c' = fs.getCol c' := by
  unfold FS.setCol
  split <;> (unfold FS.getCol <;> split <;> simp_all)

theorem getCol_writeFile_ne (fs : FS) (f : SFile) {c c' : String} (h : c' ≠ c) :
    (fs.writeFile c f).getCol c' = fs.getCol c' :=
  getCol_setCol_ne fs _ h

theorem getCol_unlink_ne (fs : FS) (n : String) {c c' : String} (h : c' ≠ c) :
    (fs.unlink c n).getCol c' = fs.getCol c' :=
  getCol_setCol_ne fs _ h

theorem mem_replaceOrAppend {l : List SFile} {f g : SFile}
    (h : g ∈ replaceOrAppend l f) : g ∈ l ∨ g = f := by
  induction l with
  | nil => simpa [replaceOrAppend] using h
  | cons x l ih =>
    unfold replaceOrAppend at h
    split at h
    · rcases List.mem_cons.mp h with h | h
      · exact Or.inr h
      · exact Or.inl (List.mem_cons_of_mem x h)
    · rcases List.mem_cons.mp h with h | h
      · exact Or.inl (by simp [h])
      · rcases ih h with h' | h'
        · exact Or.inl (List.mem_cons_of_mem x h')
        · exact Or.inr h'

end Sync

end TaskManager

namespace TaskManager

namespace Sync

theorem getCol_setCol (fs : FS) (l : List SFile) (c c' : String) :
    (fs.setCol c l).getCol c' =
      if c' = c ∧ c ∈ VALID_COLUMNS then l else fs.getCol c' := by
  unfold FS.setCol
  split <;> (unfold FS.getCol <;> split <;> simp_all [VALID_COLUMNS])

/-- The four no-move outcomes of the per-file loop body, and the move
outcome, as equations. -/
theorem processFile_malformed (wf : String → String → Bool) (now c : String) (fs : FS)
    (name : String) :
    processFile wf now c fs ⟨name, Content.malformed⟩ = (fs, 0, 1, [Ev.loadError name]) := rfl

theorem processFile_empty (wf : String → String → Bool) (now c : String) (fs : FS)
    (name : String) :
    processFile wf now c fs ⟨name, Content.emptyDoc⟩ = (fs, 0, 0, []) := rfl

theorem processFile_invalid {wf : String → String → Bool} {now c : String} (fs : FS)
    {name : String} {d : TaskData} (hv : normStatus d ∉ VALID_COLUMNS) :
    processFile wf now c fs ⟨name, Content.ok d⟩ =
      (fs, 0, 1, [Ev.warnInvalidStatus name (normStatus d)]) := by
  simp only [processFile]
  rw [if_neg hv]

theorem processFile_inplace {wf : String → String → Bool} {now c : String} (fs : FS)
    {name : String} {d : TaskData} (hv : normStatus d ∈ VALID_COLUMNS)
    (heq : normStatus d = c) :
    processFile wf now c fs ⟨name, Content.ok d⟩ = (fs, 0, 0, []) := by
  simp [processFile, hv, heq]
  exact heq ▸ hv

theorem processFile_wfail {wf : String → String → Bool} {now c : String} (fs : FS)
    {name : String} {d : TaskData} (hv : normStatus d ∈ VALID_COLUMNS)
    (hne : normStatus d ≠ c) (hwf : wf (normStatus d) name = true) :
    processFile wf now c fs ⟨name, Content.ok d⟩ =
      (fs, 0, 1, [Ev.writeError (normStatus d) name]) := by
  simp [processFile, hv, hne, hwf]

theorem processFile_move {wf : String → String → Bool} {now c : String} (fs : FS)
    {name : String} {d : TaskData} (hv : normStatus d ∈ VALID_COLUMNS)
    (hne : normStatus d ≠ c) (hwf : wf (normStatus d) name = false) :
    processFile wf now c fs ⟨name, Content.ok d⟩ =
      ((fs.writeFile (normStatus d) ⟨name, Content.ok { d with updated := some now }⟩).unlink c name,
        1, 0,
        [Ev.wrote (normStatus d) name, Ev.deleted c name,
         Ev.movedMsg (d.title.getD "Untitled") c (normStatus d) name]) := by
  simp [processFile, hv, hne, hwf]

/-- Updating `updated` does not change the status a record declares. -/
theorem normStatus_set_updated (d : TaskData) (now : String) :
    normStatus { d with updated := some now } = normStatus d := rfl

theorem colGood_unlink {fs : FS} {c' : String} (h : colGood fs c') (c₀ n : String) :
    colGood (fs.unlink c₀ n) c' := by
  intro g hg
  unfold FS.unlink at hg
  rw [getCol_setCol] at hg
  split at hg
  · rename_i hcond
    obtain ⟨hc, hmem⟩ := hcond
    subst hc
    exact h g (List.mem_of_mem_filter hg)
  · exact h g hg

theorem colGood_writeFile {fs : FS} {c' : String} (h : colGood fs c')
    {f : SFile} (cw : String) (hgood : cw = c' → fileGood c' f = true) :
    colGood (fs.writeFile cw f) c' := by
  intro g hg
  unfold FS.writeFile at hg
  rw [getCol_setCol] at hg
  split at hg
  · rename_i hcond
    obtain ⟨hc, hmem⟩ := hcond
    subst hc
    rcases mem_replaceOrAppend hg with h' | h'
    · exact h g h'
    · subst h'
      exact hgood rfl
  · exact h g hg

/-- One loop-body step preserves consistency of every column: the only
file it ever adds is written to the column matching its own status. -/
theorem processFile_colGood {wf : String → String → Bool} {now c c' : String}
    {fs : FS} {f : SFile} (h : colGood fs c') :
    colGood (processFile wf now c fs f).1 c' := by
  obtain ⟨name, content⟩ := f
  cases content with
  | malformed => exact h
  | emptyDoc => exact h
  | ok d =>
    by_cases hv : normStatus d ∈ VALID_COLUMNS
    · by_cases heq : normStatus d = c
      · rw [processFile_inplace fs hv heq]; exact h
      · cases hwf : wf (normStatus d) name with
        | true => rw [processFile_wfail fs hv heq hwf]; exact h
        | false =>
          rw [processFile_move fs hv heq hwf]
          refine colGood_unlink (colGood_writeFile h _ ?_) c name
          intro hcw
          simp [fileGood, normStatus_set_updated, hcw]
    · rw [processFile_invalid fs hv]; exact h

end Sync

end TaskManager

namespace TaskManager

namespace Sync

theorem syncFiles_nil (wf : String → String → Bool) (now c : String) (fs : FS) :
    syncFiles wf now c [] fs = (fs, 0, 0, []) := rfl

theorem syncFiles_cons (wf : String → String → Bool) (now c : String) (fs : FS)
    (f : SFile) (rest : List SFile) :
    syncFiles wf now c (f :: rest) fs =
      ((syncFiles wf now c rest (processFile wf now c fs f).1).1,
        (processFile wf now c fs f).2.1 + (syncFiles wf now c rest (processFile wf now c fs f).1).2.1,
        (processFile wf now c fs f).2.2.1 + (syncFiles wf now c rest (processFile wf now c fs f).1).2.2.1,
        (processFile wf now c fs f).2.2.2 ++ (syncFiles wf now c rest (processFile wf now c fs f).1).2.2.2) := rfl

theorem syncColumns_nil (wf : String → String → Bool) (now : String) (fs : FS) :
    syncColumns wf now [] fs = (fs, 0, 0, []) := rfl

theorem syncColumns_cons (wf : String → String → Bool) (now : String) (fs : FS)
    (c : String) (cs : List String) :
    syncColumns wf now (c :: cs) fs =
      ((syncColumns wf now cs (syncFiles wf now c (fs.getCol c) fs).1).1,
        (syncFiles wf now c (fs.getCol c) fs).2.1 +
          (syncColumns wf now cs (syncFiles wf now c (fs.getCol c) fs).1).2.1,
        (syncFiles wf now c (fs.getCol c) fs).2.2.1 +
          (syncColumns wf now cs (syncFiles wf now c (fs.getCol c) fs).1).2.2.1,
        (syncFiles wf now c (fs.getCol c) fs).2.2.2 ++
          (syncColumns wf now cs (syncFiles wf now c (fs.getCol c) fs).1).2.2.2) := rfl


theorem getCol_of_not_valid (fs : FS) {c : String} (h : c ∉ VALID_COLUMNS) :
    fs.getCol c = [] := by
  unfold FS.getCol
  split <;> simp_all [VALID_COLUMNS]

theorem syncFiles_colGood_preserved {wf : String → String → Bool} {now c c' : String}
    {files : List SFile} {fs : FS} (h : colGood fs c') :
    colGood (syncFiles wf now c files fs).1 c' := by
  induction files generalizing fs with
  | nil => exact h
  | cons f rest ih => exact ih (processFile_colGood h)

theorem syncColumns_colGood_preserved {wf : String → String → Bool} {now c' : String}
    {cs : List String} {fs : FS} (h : colGood fs c') :
    colGood (syncColumns wf now cs fs).1 c' := by
  induction cs generalizing fs with
  | nil => exact h
  | cons c cs ih => exact ih (syncFiles_colGood_preserved h)

/-- The key invariant: a zero-error pass over a snapshot of column `c`
leaves `c` consistent, provided every file of `c` not yet processed is
in the snapshot. -/
theorem syncFiles_colGood {wf : String → String → Bool} {now c : String}
    {files : List SFile} {fs : FS}
    (hsub : ∀ f ∈ fs.getCol c, f ∈ files ∨ fileGood c f = true)
    (herr : (syncFiles wf now c files fs).2.2.1 = 0) :
    colGood (syncFiles wf now c files fs).1 c := by
  induction files generalizing fs with
  | nil =>
    intro f hf
    rcases hsub f hf with h | h
    · simp at h
    · exact h
  | cons f rest ih =>
    rw [syncFiles_cons] at herr ⊢
    obtain ⟨name, content⟩ := f
    cases content with
    | malformed => rw [processFile_malformed] at herr; simp at herr
    | emptyDoc =>
      rw [processFile_empty] at herr ⊢
      simp only [Nat.zero_add] at herr ⊢
      refine ih (fun g hg => ?_) herr
      rcases hsub g hg with h | h
      · rcases List.mem_cons.mp h with h | h
        · subst h; exact Or.inr rfl
        · exact Or.inl h
      · exact Or.inr h
    | ok d =>
      by_cases hv : normStatus d ∈ VALID_COLUMNS
      · by_cases heq : normStatus d = c
        · rw [processFile_inplace fs hv heq] at herr ⊢
          simp only [Nat.zero_add] at herr ⊢
          refine ih (fun g hg => ?_) herr
          rcases hsub g hg with h | h
          · rcases List.mem_cons.mp h with h | h
            · subst h
              exact Or.inr (by simp [fileGood, heq])
            · exact Or.inl h
          · exact Or.inr h
        · cases hwf : wf (normStatus d) name with
          | true => rw [processFile_wfail fs hv heq hwf] at herr; simp at herr
          | false =>
            rw [processFile_move fs hv heq hwf] at herr ⊢
            simp only [Nat.zero_add] at herr ⊢
            refine ih (fun g hg => ?_) herr
            -- after the move, column `c` holds the previous files minus `name`
            unfold FS.unlink at hg
            rw [getCol_setCol] at hg
            split at hg
            · rename_i hcond
              have hmemf := List.mem_of_mem_filter hg
              have hname : g.name ≠ name := by
                have := List.of_mem_filter hg
                simpa using this
              rw [getCol_writeFile_ne _ _ (Ne.symm heq)] at hmemf
              rcases hsub g hmemf with h | h
              · rcases List.mem_cons.mp h with h | h
                · exact absurd (congrArg SFile.name h) (by simpa using hname)
                · exact Or.inl h
              · exact Or.inr h
            · rename_i hcond
              have hcv : c ∉ VALID_COLUMNS := by
                intro hmem
                exact hcond ⟨rfl, hmem⟩
              rw [getCol_of_not_valid _ hcv] at hg
              simp at hg
      · rw [processFile_invalid fs hv] at herr
        simp at herr

end Sync

end TaskManager

namespace TaskManager

namespace Sync

/-- A zero-error pass establishes consistency of every column it
visits, and preserves consistency of any already-consistent column. -/
theorem syncColumns_colGood {wf : String → String → Bool} {now : String}
    {cs : List String} {fs : FS}
    (herr : (syncColumns wf now cs fs).2.2.1 = 0) :
    ∀ c ∈ cs, colGood (syncColumns wf now cs fs).1 c := by
  induction cs generalizing fs with
  | nil => intro c hc; simp at hc
  | cons c0 cs ih =>
    rw [syncColumns_cons] at herr ⊢
    simp only at herr ⊢
    have h1 : (syncFiles wf now c0 (fs.getCol c0) fs).2.2.1 = 0 :=
      Nat.eq_zero_of_add_eq_zero_right herr
    have h2 : (syncColumns wf now cs (syncFiles wf now c0 (fs.getCol c0) fs).1).2.2.1 = 0 :=
      Nat.eq_zero_of_add_eq_zero_left herr
    intro c hc
    rcases List.mem_cons.mp hc with rfl | hc
    · exact syncColumns_colGood_preserved
        (syncFiles_colGood (fun f hf => Or.inl hf) h1)
    · exact ih h2 c hc

/-- In a consistent column of the valid set, the loop body does
nothing. -/
theorem processFile_of_good {wf : String → String → Bool} {now c : String}
    {fs : FS} {f : SFile} (hc : c ∈ VALID_COLUMNS) (hgood : fileGood c f = true) :
    processFile wf now c fs f = (fs, 0, 0, []) := by
  obtain ⟨name, content⟩ := f
  cases content with
  | malformed => simp [fileGood] at hgood
  | emptyDoc => exact processFile_empty wf now c fs name
  | ok d =>
    have heq : normStatus d = c := by simpa [fileGood] using hgood
    exact processFile_inplace fs (heq ▸ hc) heq

theorem syncFiles_of_good {wf : String → String → Bool} {now c : String}
    {files : List SFile} {fs : FS} (hc : c ∈ VALID_COLUMNS)
    (hgood : ∀ f ∈ files, fileGood c f = true) :
    syncFiles wf now c files fs = (fs, 0, 0, []) := by
  induction files with
  | nil => rfl
  | cons f rest ih =>
    rw [syncFiles_cons, processFile_of_good hc (hgood f (by simp)),
      ih (fun g hg => hgood g (List.mem_cons_of_mem f hg))]
    rfl

theorem syncColumns_of_good {wf : String → String → Bool} {now : String}
    {cs : List String} {fs : FS} (hcs : ∀ c ∈ cs, c ∈ VALID_COLUMNS)
    (hgood : ∀ c ∈ cs, colGood fs c) :
    syncColumns wf now cs fs = (fs, 0, 0, []) := by
  induction cs with
  | nil => rfl
  | cons c0 cs ih =>
    rw [syncColumns_cons,
      syncFiles_of_good (hcs c0 (by simp)) (fun f hf => hgood c0 (by simp) f hf),
      ih (fun c hc => hcs c (List.mem_cons_of_mem c0 hc))
        (fun c hc => hgood c (List.mem_cons_of_mem c0 hc))]
    rfl

end Sync

end TaskManager

namespace TaskManager

namespace Sync

/-! ### Claim theorems for the sync engine -/

/-- C1: for every record the Reconciler moves, the destination write
(`Ev.wrote`) is emitted strictly before the deletion of the original
(`Ev.deleted`); if the destination write raises, the tree is returned
unchanged — the original file still exists at its original path and
nothing is deleted — the failure counts as exactly one error, and the
remaining files of the pass are processed exactly as if from the same
tree. -/
theorem move_write_before_delete {wf : String → String → Bool} {now c name : String}
    {d : TaskData} (fs : FS) (hv : normStatus d ∈ VALID_COLUMNS)
    (hne : normStatus d ≠ c) :
    (wf (normStatus d) name = false →
      events (processFile wf now c fs ⟨name, Content.ok d⟩) =
        [Ev.wrote (normStatus d) name, Ev.deleted c name,
         Ev.movedMsg (d.title.getD "Untitled") c (normStatus d) name]) ∧
    (wf (normStatus d) name = true →
      processFile wf now c fs ⟨name, Content.ok d⟩ =
        (fs, 0, 1, [Ev.writeError (normStatus d) name])) ∧
    (wf (normStatus d) name = true → ∀ (rest : List SFile) (fs0 : FS),
      syncFiles wf now c (⟨name, Content.ok d⟩ :: rest) fs0 =
        ((syncFiles wf now c rest fs0).1,
          (syncFiles wf now c rest fs0).2.1,
          1 + (syncFiles wf now c rest fs0).2.2.1,
          Ev.writeError (normStatus d) name :: (syncFiles wf now c rest fs0).2.2.2)) := by
  refine ⟨fun hwf => ?_, fun hwf => processFile_wfail fs hv hne hwf, fun hwf rest fs0 => ?_⟩
  · rw [events, processFile_move fs hv hne hwf]
  · rw [syncFiles_cons, processFile_wfail fs0 hv hne hwf]
    simp

theorem move_write_before_delete_witness :
    events (processFile noFail "TS" "backlog" fsA ⟨"a.yaml", Content.ok dA⟩) =
      [Ev.wrote "todo" "a.yaml", Ev.deleted "backlog" "a.yaml",
       Ev.movedMsg "Task One" "backlog" "todo" "a.yaml"] ∧
    processFile wfFail "TS" "backlog" fsA ⟨"a.yaml", Content.ok dA⟩ =
      (fsA, 0, 1, [Ev.writeError "todo" "a.yaml"]) :=
  ⟨(move_write_before_delete fsA (by decide) (by decide)).1 rfl,
   (move_write_before_delete fsA (by decide) (by decide)).2.1 rfl⟩

/-- C2 (code bug): when the relocation target already holds a file of
the same name, `sync_tasks` silently overwrites it — the pass on
`fsClobber` replaces `done/a.yaml` (the `Keeper` record) with the moved
`Mover` record, reports one move and zero errors, and surfaces no
collision diagnostic. -/
theorem collision_silently_overwrites :
    sync_tasks noFail "TS" fsClobber =
      (⟨[], [], [], [], [⟨"a.yaml", Content.ok ⟨some "done", some "Mover", some "TS", []⟩⟩]⟩,
        1, 0,
        [Ev.wrote "done" "a.yaml", Ev.deleted "todo" "a.yaml",
         Ev.movedMsg "Mover" "todo" "done" "a.yaml"]) ∧
    errorCount (sync_tasks noFail "TS" fsClobber) = 0 ∧
    ⟨"a.yaml", Content.ok dKeeper⟩ ∉ (resultFS (sync_tasks noFail "TS" fsClobber)).done := by
  refine ⟨by decide, by decide, by decide⟩

/-- C3: if a whole sync pass reports zero errors, then afterwards every
parsed record in every valid column directory declares a normalized
status equal to the column it sits in. -/
theorem sync_zero_errors_placement {wf : String → String → Bool} {now : String} {fs : FS}
    (h : errorCount (sync_tasks wf now fs) = 0) :
    ∀ c ∈ VALID_COLUMNS, ∀ f ∈ (resultFS (sync_tasks wf now fs)).getCol c,
      ∀ d, f.content = Content.ok d → normStatus d = c := by
  intro c hc f hf d hd
  have hcol := @syncColumns_colGood wf now VALID_COLUMNS fs h c hc
  have hgood := hcol f hf
  simpa [fileGood, hd] using hgood

theorem sync_zero_errors_placement_witness :
    errorCount (sync_tasks noFail "TS" fsA) = 0 ∧
    normStatus ⟨some "todo", some "Task One", some "TS", []⟩ = "todo" :=
  ⟨by decide,
    @sync_zero_errors_placement noFail "TS" fsA (by decide)
      "todo" (by decide) ⟨"a.yaml", Content.ok ⟨some "todo", some "Task One", some "TS", []⟩⟩
      (by decide) _ rfl⟩

/-- C4 (counterexample): running the Reconciler twice is not always a
no-op — on a tree holding one record with invalid status `archived`,
the second run again reports one error, so it does not return
`(0, 0)`. -/
theorem sync_twice_not_noop :
    ¬ (movedCount (sync_tasks noFail "T2" (resultFS (sync_tasks noFail "T1" fsArch))) = 0 ∧
       errorCount (sync_tasks noFail "T2" (resultFS (sync_tasks noFail "T1" fsArch))) = 0) := by
  decide

/-- C4 (amended): if the first sync pass reports zero errors, a second
pass (under any write oracle and timestamp) is a strict no-op: it
returns the tree unchanged with zero moves, zero errors and no
events. -/
theorem sync_idempotent_after_clean_run {wf wf2 : String → String → Bool}
    {now now2 : String} {fs : FS}
    (h : errorCount (sync_tasks wf now fs) = 0) :
    sync_tasks wf2 now2 (resultFS (sync_tasks wf now fs)) =
      (resultFS (sync_tasks wf now fs), 0, 0, []) := by
  apply syncColumns_of_good (fun c hc => hc)
  intro c hc
  exact syncColumns_colGood h c hc

theorem sync_idempotent_after_clean_run_witness :
    errorCount (sync_tasks noFail "T1" fsA) = 0 ∧
    sync_tasks noFail "T2" (resultFS (sync_tasks noFail "T1" fsA)) =
      (resultFS (sync_tasks noFail "T1" fsA), 0, 0, []) :=
  ⟨by decide, sync_idempotent_after_clean_run (by decide)⟩

/-- C8: a record whose lower-cased status is not a valid column name is
left exactly in place — the loop body returns the tree unchanged (no
write, no delete), emits the invalid-status warning, adds 1 to the
error counter and 0 to the moved counter. -/
theorem invalid_status_skips {wf : String → String → Bool} {now c name : String}
    {d : TaskData} (fs : FS) (hv : normStatus d ∉ VALID_COLUMNS) :
    processFile wf now c fs ⟨name, Content.ok d⟩ =
      (fs, 0, 1, [Ev.warnInvalidStatus name (normStatus d)]) :=
  processFile_invalid fs hv

theorem invalid_status_skips_witness :
    processFile noFail "TS" "backlog" fsArch ⟨"b.yaml", Content.ok dArch⟩ =
      (fsArch, 0, 1, [Ev.warnInvalidStatus "b.yaml" "archived"]) ∧
    sync_tasks noFail "TS" fsArch =
      (fsArch, 0, 1, [Ev.warnInvalidStatus "b.yaml" "archived"]) :=
  ⟨invalid_status_skips fsArch (by decide), by decide⟩

end Sync

end TaskManager

namespace TaskManager

namespace Dash

theorem sumVals_bump (l : List (String × Nat)) (k : String) :
    sumVals (bump l k) = sumVals l + 1 := by
  induction l with
  | nil => rfl
  | cons p rest ih =>
    unfold bump
    split
    · simp [sumVals, Nat.add_assoc, Nat.add_comm, Nat.add_left_comm]
    · simp [sumVals] at ih ⊢
      omega

theorem lookup0_bump_self (l : List (String × Nat)) (k : String) :
    lookup0 (bump l k) k = lookup0 l k + 1 := by
  induction l with
  | nil => simp [bump, lookup0]
  | cons p rest ih =>
    unfold bump
    split
    · rename_i h
      simp [lookup0, h]
    · rename_i h
      simp [lookup0, h, ih]

theorem lookup0_bump_ne (l : List (String × Nat)) {k k' : String} (h : k' ≠ k) :
    lookup0 (bump l k) k' = lookup0 l k' := by
  have h' : k ≠ k' := Ne.symm h
  induction l with
  | nil => simp [bump, lookup0, h']
  | cons p rest ih =>
    unfold bump
    split
    · rename_i hp
      simp [lookup0, hp, h']
    · rename_i hp
      by_cases hk : p.1 = k'
      · simp [lookup0, hk]
      · simp [lookup0, hk, ih]

theorem fourPrioritySum_bump {l : List (String × Nat)} {k : String}
    (h : k ∈ PRIORITY_KEYS) :
    fourPrioritySum (bump l k) = fourPrioritySum l + 1 := by
  simp only [PRIORITY_KEYS, List.mem_cons, List.not_mem_nil, or_false] at h
  unfold fourPrioritySum
  rcases h with rfl | rfl | rfl | rfl
  all_goals
    rw [lookup0_bump_self]
    repeat rw [lookup0_bump_ne _ (by decide)]
  all_goals omega

end Dash

end TaskManager

namespace TaskManager

namespace Dash

theorem statsStep_consistent {ip : Bool} {acc : StatsAcc} {c : String} {t : Task}
    (hacc : accConsistent acc) (hc : c ∈ COLUMNS) (hp : t.priority ∈ PRIORITY_KEYS) :
    accConsistent (statsStep ip acc c t) := by
  unfold statsStep
  split
  · exact hacc
  · obtain ⟨h1, h2, h3⟩ := hacc
    refine ⟨?_, ?_, ?_⟩
    · simp only [COLUMNS, List.mem_cons, List.not_mem_nil, or_false] at hc
      rcases hc with rfl | rfl | rfl | rfl | rfl <;> simp <;> omega
    · simp only [fourPrioritySum_bump hp]
      omega
    · simp only [sumVals_bump]
      omega

theorem statsLoop_consistent {ip : Bool} {pairs : List (String × Task)} {acc : StatsAcc}
    (hacc : accConsistent acc)
    (hpairs : ∀ p ∈ pairs, p.1 ∈ COLUMNS ∧ p.2.priority ∈ PRIORITY_KEYS) :
    accConsistent (statsLoop ip pairs acc) := by
  induction pairs generalizing acc with
  | nil => exact hacc
  | cons p rest ih =>
    obtain ⟨c, t⟩ := p
    exact ih
      (statsStep_consistent hacc (hpairs (c, t) (by simp)).1 (hpairs (c, t) (by simp)).2)
      (fun q hq => hpairs q (List.mem_cons_of_mem _ hq))

theorem statsInit_consistent : accConsistent statsInit := by
  refine ⟨rfl, by decide, rfl⟩

theorem statsPairs_mem {tasks : TasksMap} {p : String × Task}
    (h : p ∈ statsPairs tasks) : p.1 ∈ COLUMNS ∧ p.2 ∈ tasks.getCol p.1 := by
  unfold statsPairs at h
  rcases List.mem_flatMap.mp h with ⟨c, hc, hp⟩
  rcases List.mem_map.mp hp with ⟨t, ht, rfl⟩
  exact ⟨hc, ht⟩

theorem statsLoop_total (ip : Bool) (pairs : List (String × Task)) (acc : StatsAcc) :
    (statsLoop ip pairs acc).total =
      acc.total + (pairs.filter (statsCounted ip)).length := by
  induction pairs generalizing acc with
  | nil => simp [statsLoop]
  | cons p rest ih =>
    obtain ⟨c, t⟩ := p
    rw [statsLoop, ih]
    unfold statsStep
    by_cases h : (!ip && t.«private») = true
    · rw [if_pos h]
      have hcount : statsCounted ip (c, t) = false := by
        unfold statsCounted
        simp [h]
      simp [List.filter_cons, hcount]
    · rw [if_neg h]
      have hcount : statsCounted ip (c, t) = true := by
        unfold statsCounted
        simp only [Bool.not_eq_true] at h
        simp [h]
      simp only [List.filter_cons, hcount, if_true, List.length_cons]
      omega

end Dash

end TaskManager

namespace TaskManager

namespace Dash

/-- C5: the Aggregator's total with `include_private = False` equals the
number of task cards the public document renders across all columns —
both sides drop exactly the records with a truthy `private` field. -/
theorem privacy_filter_equivalence (tasks : TasksMap) :
    (calculate_stats tasks false).total = (renderedCards tasks true).length := by
  show (statsLoop false (statsPairs tasks) statsInit).total = _
  rw [statsLoop_total]
  show 0 + _ = _
  rw [Nat.zero_add]
  unfold statsPairs renderedCards renderColumnTasks COLUMNS
  simp [List.filter_map, Function.comp_def, statsCounted]

end Dash

end TaskManager

namespace TaskManager

namespace Dash

/-! ### Aggregator claim theorems -/

theorem roundHalfEven_intCast (n : ℤ) : roundHalfEven (n : ℚ) = n := by
  unfold roundHalfEven
  rw [Int.floor_intCast]
  norm_num

theorem round1_zero : round1 0 = 0 := by
  unfold round1
  rw [show (0 : ℚ) * 10 = ((0 : ℤ) : ℚ) by norm_num, roundHalfEven_intCast]
  norm_num

theorem completionRate_eq (done total : Nat) :
    (total = 0 → completionRate done total = 0) ∧
    (0 < total →
      completionRate done total = round1 ((done : ℚ) / (total : ℚ) * 100)) := by
  constructor
  · intro h
    unfold completionRate
    rw [if_neg (by omega), round1_zero]
  · intro h
    unfold completionRate
    rw [if_pos h]

/-- C9: the completion rate is `done / total * 100` rounded to one
decimal place when the (post-filter) total is positive, and `0` when
the total is zero — division by zero never happens. -/
theorem completion_rate_correct (tasks : TasksMap) (ip : Bool) :
    ((calculate_stats tasks ip).total = 0 →
      (calculate_stats tasks ip).completion_rate = 0) ∧
    (0 < (calculate_stats tasks ip).total →
      (calculate_stats tasks ip).completion_rate =
        round1 (((calculate_stats tasks ip).done : ℚ) /
          ((calculate_stats tasks ip).total : ℚ) * 100)) :=
  ⟨fun h => (completionRate_eq _ _).1 h, fun h => (completionRate_eq _ _).2 h⟩

theorem completion_rate_correct_witness :
    (calculate_stats tasksEmpty true).completion_rate = 0 ∧
    (calculate_stats tasks4 true).completion_rate = 25 := by
  constructor
  · exact (completion_rate_correct tasksEmpty true).1 (by decide)
  · have h := (completion_rate_correct tasks4 true).2 (by decide)
    have hdone : (calculate_stats tasks4 true).done = 1 := by decide
    have htot : (calculate_stats tasks4 true).total = 4 := by decide
    rw [h, hdone, htot]
    unfold round1
    rw [show ((1 : ℕ) : ℚ) / ((4 : ℕ) : ℚ) * 100 * 10 = ((250 : ℤ) : ℚ) by norm_num,
      roundHalfEven_intCast]
    norm_num

/-- C10 (counterexample): on a mapping holding a record whose raw
priority `critical` was never normalized, the total does not equal the
sum of the four per-priority counts — `calculate_stats` files the
record under a fresh `critical` key instead. -/
theorem stats_consistency_counterexample :
    ¬ ((calculate_stats tasksCritical true).total =
        (calculate_stats tasksCritical true).backlog +
          (calculate_stats tasksCritical true).todo +
          (calculate_stats tasksCritical true).active +
          (calculate_stats tasksCritical true).stalled +
          (calculate_stats tasksCritical true).done ∧
      (calculate_stats tasksCritical true).total =
        fourPrioritySum (calculate_stats tasksCritical true).by_priority ∧
      (calculate_stats tasksCritical true).total =
        sumVals (calculate_stats tasksCritical true).by_category) := by
  decide

/-- C10 (amended): for either value of `include_private`, and provided
every record carries one of the four normalized priorities (as the
loader guarantees), the statistics are internally consistent: the total
equals both the sum of the five per-column counts, the sum of the four
per-priority counts, and the sum of the per-category counts. -/
theorem stats_internally_consistent (tasks : TasksMap) (ip : Bool)
    (hp : ∀ c ∈ COLUMNS, ∀ t ∈ tasks.getCol c, t.priority ∈ PRIORITY_KEYS) :
    (calculate_stats tasks ip).total =
        (calculate_stats tasks ip).backlog + (calculate_stats tasks ip).todo +
          (calculate_stats tasks ip).active + (calculate_stats tasks ip).stalled +
          (calculate_stats tasks ip).done ∧
    (calculate_stats tasks ip).total =
        fourPrioritySum (calculate_stats tasks ip).by_priority ∧
    (calculate_stats tasks ip).total =
        sumVals (calculate_stats tasks ip).by_category :=
  statsLoop_consistent statsInit_consistent
    (fun p hp' => ⟨(statsPairs_mem hp').1,
      hp p.1 (statsPairs_mem hp').1 p.2 (statsPairs_mem hp').2⟩)

theorem stats_internally_consistent_witness :
    (calculate_stats tasks4 false).total =
        (calculate_stats tasks4 false).backlog + (calculate_stats tasks4 false).todo +
          (calculate_stats tasks4 false).active + (calculate_stats tasks4 false).stalled +
          (calculate_stats tasks4 false).done ∧
    (calculate_stats tasks4 false).total =
        fourPrioritySum (calculate_stats tasks4 false).by_priority ∧
    (calculate_stats tasks4 false).total =
        sumVals (calculate_stats tasks4 false).by_category :=
  stats_internally_consistent tasks4 false (by decide)

end Dash

end TaskManager

namespace TaskManager

namespace Dash

theorem normPriority_mem (p : Option String) : normPriority p ∈ PRIORITY_KEYS := by
  show (if Sync.pyLower (p.getD "medium") ∈ PRIORITY_KEYS then Sync.pyLower (p.getD "medium")
    else "medium") ∈ PRIORITY_KEYS
  by_cases h : Sync.pyLower (p.getD "medium") ∈ PRIORITY_KEYS
  · rwa [if_pos h]
  · rw [if_neg h]
    decide

theorem taskLE_trans : ∀ (a b c : Task), taskLE a b → taskLE b c → taskLE a c := by
  intro a b c hab hbc
  simp only [taskLE, decide_eq_true_eq] at *
  omega

theorem taskLE_total : ∀ (a b : Task), taskLE a b || taskLE b a := by
  intro a b
  simp only [taskLE, Bool.or_eq_true, decide_eq_true_eq]
  omega

theorem mem_sortColumn {l : List Task} {t : Task} : t ∈ sortColumn l ↔ t ∈ l :=
  List.mem_mergeSort

theorem sortColumn_sorted (l : List Task) :
    (sortColumn l).Pairwise
      (fun a b => priorityOrder b.priority ≤ priorityOrder a.priority) := by
  have h := List.sorted_mergeSort taskLE_trans taskLE_total l
  exact h.imp (fun hab => by simpa [taskLE, decide_eq_true_eq] using hab)

theorem sortColumn_stable (l : List Task) (p : String) :
    (sortColumn l).filter (fun t => t.priority = p) =
      l.filter (fun t => t.priority = p) := by
  have hincl : ∀ a ∈ l.filter (fun t => decide (t.priority = p)), a.priority = p := by
    intro a ha
    simpa using List.of_mem_filter ha
  have hpw : (l.filter (fun t => decide (t.priority = p))).Pairwise
      (fun a b => taskLE a b = true) := by
    apply List.pairwise_of_forall_mem_list
    intro a ha b hb
    simp [taskLE, hincl a ha, hincl b hb]
  have hsub : List.Sublist (l.filter (fun t => decide (t.priority = p))) (sortColumn l) :=
    List.sublist_mergeSort taskLE_trans taskLE_total hpw (List.filter_sublist l)
  have hfix : (l.filter (fun t => decide (t.priority = p))).filter
      (fun t => decide (t.priority = p)) = l.filter (fun t => decide (t.priority = p)) :=
    List.filter_eq_self.mpr (fun a ha => by simp [hincl a ha])
  have hsub2 : List.Sublist (l.filter (fun t => decide (t.priority = p)))
      ((sortColumn l).filter (fun t => decide (t.priority = p))) := by
    have := hsub.filter (fun t => decide (t.priority = p))
    rwa [hfix] at this
  have hperm : List.Perm ((sortColumn l).filter (fun t => decide (t.priority = p)))
      (l.filter (fun t => decide (t.priority = p))) :=
    (List.mergeSort_perm l taskLE).filter _
  exact (hsub2.eq_of_length hperm.length_eq.symm).symm

theorem loadColumnFiles_priority {c : String} {files : List DFile} :
    ∀ t ∈ (loadColumnFiles c files).1, t.priority ∈ PRIORITY_KEYS := by
  induction files with
  | nil => intro t ht; simp [loadColumnFiles] at ht
  | cons f rest ih =>
    intro t ht
    unfold loadColumnFiles at ht
    cases hf : f.content with
    | malformed => rw [hf] at ht; exact ih t ht
    | emptyDoc => rw [hf] at ht; exact ih t ht
    | ok raw =>
      rw [hf] at ht
      rcases List.mem_cons.mp ht with rfl | ht
      · exact normPriority_mem raw.priority
      · exact ih t ht

theorem loadDir_priority {c : String} {o : Option (List DFile)} :
    ∀ t ∈ (loadDir c o).1, t.priority ∈ PRIORITY_KEYS := by
  cases o with
  | none => intro t ht; simp [loadDir] at ht
  | some files => exact loadColumnFiles_priority

/-- C7: after loading, every record's priority is one of the four
known values (`normPriority` sends unrecognized raw priorities,
including `critical`, to `medium`), and each column of the result is
sorted by priority rank descending, with records of equal priority kept
in their original enumeration order (the sorted column filtered to one
priority equals the unsorted load order so filtered). -/
theorem loader_priorities_normalized_sorted_stable (s : Store) :
    (∀ c ∈ COLUMNS, ∀ t ∈ (load_tasks s).1.getCol c, t.priority ∈ PRIORITY_KEYS) ∧
    (∀ c ∈ COLUMNS, ((load_tasks s).1.getCol c).Pairwise
      (fun a b => priorityOrder b.priority ≤ priorityOrder a.priority)) ∧
    (∀ c ∈ COLUMNS, ∀ p : String,
      ((load_tasks s).1.getCol c).filter (fun t => t.priority = p) =
        (loadDir c (s.getCol c)).1.filter (fun t => t.priority = p)) ∧
    normPriority (some "critical") = "medium" := by
  have hmem : ∀ c ∈ COLUMNS, (load_tasks s).1.getCol c =
      sortColumn (loadDir c (s.getCol c)).1 := by
    intro c hc
    simp only [COLUMNS, List.mem_cons, List.not_mem_nil, or_false] at hc
    rcases hc with rfl | rfl | rfl | rfl | rfl <;> rfl
  refine ⟨?_, ?_, ?_, rfl⟩
  · intro c hc t ht
    rw [hmem c hc] at ht
    exact loadDir_priority t (mem_sortColumn.mp ht)
  · intro c hc
    rw [hmem c hc]
    exact sortColumn_sorted _
  · intro c hc p
    rw [hmem c hc]
    exact sortColumn_stable _ p

end Dash

end TaskManager

namespace TaskManager

namespace Dash

theorem loader_priorities_witness :
    (∀ t ∈ (load_tasks storeFixture).1.getCol "backlog", t.priority ∈ PRIORITY_KEYS) ∧
    (load_tasks storeFixture).1.backlog.map Task.priority =
      ["urgent", "high", "medium", "low"] := by
  refine ⟨(loader_priorities_normalized_sorted_stable storeFixture).1 "backlog" (by decide), ?_⟩
  have hexp : (load_tasks storeFixture).1.backlog =
      [normalizeTask rawUrgent "u.yaml" "backlog", normalizeTask rawHigh "h.yaml" "backlog",
        normalizeTask rawMedium "m.yaml" "backlog", normalizeTask rawLow "l.yaml" "backlog"] := by
    show List.mergeSort
      [normalizeTask rawLow "l.yaml" "backlog", normalizeTask rawUrgent "u.yaml" "backlog",
        normalizeTask rawMedium "m.yaml" "backlog", normalizeTask rawHigh "h.yaml" "backlog"]
      taskLE = _
    apply @List.Perm.eq_of_sorted Task (fun a b => taskLE a b = true)
    · intro a b ha hb
      rw [List.mem_mergeSort] at ha
      exact (show ∀ a ∈ [normalizeTask rawLow "l.yaml" "backlog",
          normalizeTask rawUrgent "u.yaml" "backlog", normalizeTask rawMedium "m.yaml" "backlog",
          normalizeTask rawHigh "h.yaml" "backlog"],
        ∀ b ∈ [normalizeTask rawUrgent "u.yaml" "backlog", normalizeTask rawHigh "h.yaml" "backlog",
          normalizeTask rawMedium "m.yaml" "backlog", normalizeTask rawLow "l.yaml" "backlog"],
        taskLE a b = true → taskLE b a = true → a = b by decide) a ha b hb
    · exact List.sorted_mergeSort taskLE_trans taskLE_total _
    · decide
    · exact (List.mergeSort_perm _ _).trans (by decide)
  rw [hexp]
  decide

end Dash

end TaskManager

namespace TaskManager

namespace Dash

theorem containsSub_iff (pat : List Char) (l : List Char) :
    containsSub pat l = true ↔ pat <:+: l := by
  induction l with
  | nil => simp [containsSub]
  | cons c rest ih =>
    unfold containsSub
    by_cases h : pat.isPrefixOf (c :: rest) = true
    · rw [if_pos h]
      simp only [true_iff]
      exact (List.isPrefixOf_iff_prefix.mp h).isInfix
    · rw [if_neg h, ih, List.infix_cons_iff]
      constructor
      · exact Or.inr
      · rintro (hp | hi)
        · exact absurd (List.isPrefixOf_iff_prefix.mpr hp) h
        · exact hi

theorem endsWithPrefixOf_iff (pat l : List Char) :
    endsWithPrefixOf pat l = true ↔ ∃ s, s <:+ l ∧ s ≠ [] ∧ s <+: pat := by
  induction l with
  | nil => simp [endsWithPrefixOf]
  | cons c rest ih =>
    unfold endsWithPrefixOf
    by_cases h : (c :: rest).isPrefixOf pat = true
    · rw [if_pos h]
      simp only [true_iff]
      exact ⟨c :: rest, List.suffix_refl _, by simp, List.isPrefixOf_iff_prefix.mp h⟩
    · rw [if_neg h, ih]
      constructor
      · rintro ⟨s, hs, hne, hp⟩
        exact ⟨s, hs.trans (List.suffix_cons c rest), hne, hp⟩
      · rintro ⟨s, hs, hne, hp⟩
        rcases List.suffix_cons_iff.mp hs with rfl | hs'
        · exact absurd (List.isPrefixOf_iff_prefix.mpr hp) h
        · exact ⟨s, hs', hne, hp⟩

theorem SafeList_iff (l : List Char) :
    SafeList l ↔
      (¬ scriptPat <:+: l ∧ ∀ s, s <:+ l → s ≠ [] → ¬ s <+: scriptPat) := by
  unfold SafeList
  constructor
  · rintro ⟨h1, h2⟩
    refine ⟨fun h => ?_, fun s hs hne hp => ?_⟩
    · rw [← containsSub_iff, h1] at h
      simp at h
    · have he : endsWithPrefixOf scriptPat l = true :=
        (endsWithPrefixOf_iff _ _).mpr ⟨s, hs, hne, hp⟩
      rw [h2] at he
      simp at he
  · rintro ⟨h1, h2⟩
    constructor
    · cases hc : containsSub scriptPat l
      · rfl
      · exact absurd ((containsSub_iff _ _).mp hc) h1
    · cases he : endsWithPrefixOf scriptPat l
      · rfl
      · obtain ⟨s, hs, hne, hp⟩ := (endsWithPrefixOf_iff _ _).mp he
        exact absurd hp (h2 s hs hne)

theorem suffix_append_cases {α : Type} {s a b : List α} (h : s <:+ a ++ b) :
    s <:+ b ∨ ∃ s₁, s₁ ≠ [] ∧ s₁ <:+ a ∧ s = s₁ ++ b := by
  induction a generalizing s with
  | nil => exact Or.inl (by simpa using h)
  | cons x a ih =>
    obtain ⟨r, hr⟩ := h
    cases r with
    | nil =>
      refine Or.inr ⟨x :: a, by simp, List.suffix_refl _, ?_⟩
      simpa using hr
    | cons y r =>
      simp only [List.cons_append, List.cons.injEq] at hr
      rcases ih ⟨r, hr.2⟩ with h' | ⟨s₁, h1, h2, h3⟩
      · exact Or.inl h'
      · exact Or.inr ⟨s₁, h1, h2.trans (List.suffix_cons x a), h3⟩

theorem prefix_append_cases {α : Type} {p a b : List α} (h : p <+: a ++ b) :
    p <+: a ∨ ∃ t, t <+: b ∧ p = a ++ t := by
  induction a generalizing p with
  | nil => exact Or.inr ⟨p, by simpa using h, by simp⟩
  | cons x a ih =>
    cases p with
    | nil => exact Or.inl List.nil_prefix
    | cons y p =>
      simp only [List.cons_append, List.cons_prefix_cons] at h
      rcases ih h.2 with h' | ⟨t, h1, h2⟩
      · exact Or.inl (by simp [h.1, List.cons_prefix_cons, h'])
      · exact Or.inr ⟨t, h1, by simp [h.1, h2]⟩

theorem SafeList_append {a b : List Char} (ha : SafeList a) (hb : SafeList b) :
    SafeList (a ++ b) := by
  rw [SafeList_iff] at ha hb ⊢
  obtain ⟨ha1, ha2⟩ := ha
  obtain ⟨hb1, hb2⟩ := hb
  constructor
  · intro hinf
    rcases List.infix_iff_prefix_suffix.mp hinf with ⟨t, hpt, hts⟩
    rcases suffix_append_cases hts with h' | ⟨s₁, h1, h2, h3⟩
    · exact hb1 (List.infix_iff_prefix_suffix.mpr ⟨t, hpt, h'⟩)
    · subst h3
      rcases prefix_append_cases hpt with h' | ⟨u, hu, hpu⟩
      · exact ha1 (List.infix_iff_prefix_suffix.mpr ⟨s₁, h', h2⟩)
      · exact ha2 s₁ h2 h1 ⟨u, hpu.symm⟩
  · intro s hs hne hsp
    rcases suffix_append_cases hs with h' | ⟨s₁, h1, h2, h3⟩
    · exact hb2 s h' hne hsp
    · subst h3
      exact ha2 s₁ h2 h1 ((List.prefix_append s₁ b).trans hsp)

theorem SafeStr_append {a b : String} (ha : SafeStr a) (hb : SafeStr b) :
    SafeStr (a ++ b) := by
  unfold SafeStr at *
  rw [String.data_append]
  exact SafeList_append ha hb

theorem occursIn_append_left {p a : String} (b : String) (h : occursIn p a) :
    occursIn p (a ++ b) := by
  obtain ⟨u, v, huv⟩ := h
  exact ⟨u, v ++ b.data, by rw [String.data_append, ← huv]; simp⟩

theorem occursIn_append_right (a : String) {p b : String} (h : occursIn p b) :
    occursIn p (a ++ b) := by
  obtain ⟨u, v, huv⟩ := h
  exact ⟨a.data ++ u, v, by rw [String.data_append, ← huv]; simp⟩

end Dash

end TaskManager

namespace TaskManager

namespace Dash

theorem load_storeC6 : (load_tasks storeC6).1 = tasksC6 := by
  show (⟨sortColumn [normalizeTask rawC6 "evil.yaml" "backlog"], sortColumn [],
    sortColumn [], sortColumn [], sortColumn []⟩ : TasksMap) = tasksC6
  unfold sortColumn
  rw [List.mergeSort_singleton, List.mergeSort_nil]
  decide

theorem statsC6_rate : (calculate_stats tasksC6 true).completion_rate = 0 := by
  show completionRate 0 1 = 0
  rw [(completionRate_eq 0 1).2 (by decide),
    show ((0 : ℕ) : ℚ) / ((1 : ℕ) : ℚ) * 100 = 0 by norm_num, round1_zero]

theorem statsC6_rateStr : completionRateStr (calculate_stats tasksC6 true) = "0.0" := by
  unfold completionRateStr
  rw [if_neg (by decide : ¬ (calculate_stats tasksC6 true).total = 0), statsC6_rate]
  unfold floatRepr1
  rw [show Int.floor ((0 : ℚ) * 10) = (0 : ℤ) by norm_num]
  rfl

set_option maxRecDepth 12000 in
theorem statsC6_safe : SafeStr (statsHtml (calculate_stats tasksC6 true)) := by
  unfold statsHtml
  rw [statsC6_rateStr]
  decide

set_option maxRecDepth 8000 in
theorem htmlPre2_safe : SafeStr htmlPre2 := by
  unfold htmlPre2
  exact SafeStr_append (SafeStr_append (SafeStr_append (by decide) (by decide))
    (by decide)) (by decide)

set_option maxRecDepth 12000 in
/-- C6: the hostile title is escaped exactly once at load time
(`load_tasks` stores `escapeString` of the raw string), the generated
document contains the entity-encoded form
`&lt;script&gt;alert(1)&lt;/script&gt;`, and the raw substring
`<script>` occurs nowhere in the document. -/
theorem title_escaped_no_raw_script :
    (load_tasks storeC6).1.backlog.map Task.title =
      [escapeString "<script>alert(1)</script>"] ∧
    occursIn "&lt;script&gt;alert(1)&lt;/script&gt;" docC6 ∧
    ¬ occursIn "<script>" docC6 := by
  have hdoc : docC6 = generate_html tasksC6 (calculate_stats tasksC6 true) false nowC6 := by
    unfold docC6
    rw [load_storeC6]
  refine ⟨by rw [load_storeC6]; decide, ?_, ?_⟩
  · rw [hdoc]
    show occursIn _ (htmlPre1 ++ "" ++ htmlPre2 ++ "" ++ htmlMid ++ "" ++ "\n        "
      ++ statsHtml (calculate_stats tasksC6 true) ++ "\n        " ++ kanbanHtml tasksC6 false
      ++ "\n        \n        <div class=\"updated\">\n            Last updated: " ++ nowC6
      ++ "\n        </div>\n    </div>\n</body>\n</html>")
    apply occursIn_append_left
    apply occursIn_append_left
    apply occursIn_append_left
    apply occursIn_append_right
    exact (containsSub_iff _ _).mp (by decide)
  · intro hocc
    have hsafe : SafeStr docC6 := by
      rw [hdoc]
      show SafeStr (htmlPre1 ++ "" ++ htmlPre2 ++ "" ++ htmlMid ++ "" ++ "\n        "
        ++ statsHtml (calculate_stats tasksC6 true) ++ "\n        " ++ kanbanHtml tasksC6 false
        ++ "\n        \n        <div class=\"updated\">\n            Last updated: " ++ nowC6
        ++ "\n        </div>\n    </div>\n</body>\n</html>")
      refine SafeStr_append (SafeStr_append (SafeStr_append (SafeStr_append (SafeStr_append
        (SafeStr_append (SafeStr_append (SafeStr_append (SafeStr_append (SafeStr_append
        (SafeStr_append (SafeStr_append (by decide) (by decide)) htmlPre2_safe) (by decide))
        (by decide)) (by decide)) (by decide)) statsC6_safe) (by decide)) (by decide))
        (by decide)) (by decide)) (by decide)
    have h1 : containsSub scriptPat docC6.data = false := hsafe.1
    rw [show scriptPat = "<script>".data from rfl] at h1
    have h2 : containsSub "<script>".data docC6.data = true := (containsSub_iff _ _).mpr hocc
    rw [h1] at h2
    simp at h2

end Dash

end TaskManager
